import Mathlib

/-!
# Verification of the Mitigata user-management table

Shallow embedding of the record table component (`src/components/Table.tsx`),
its record type (`src/types.ts`) and the surrounding UI state machine.

Conventions of the embedding:
* JS numbers that are used as integers (day counts, timestamps in
  milliseconds, page numbers, comparator results) are modelled as `Int`;
  a JS `NaN` arising from a failed parse is modelled as `Option.none`.
* JS `Date` values at local midnight are modelled by their civil day
  number (days since 1970-01-01); the environment is assumed to run at
  UTC offset 0, so `setHours(0,0,0,0)` of a date constructed from civil
  components is the identity and `getTime()` is the day number times
  86400000.
* `String.prototype.toLowerCase` is modelled by `String.toLower`
  (ASCII case folding) and `localeCompare` by code-point comparison;
  no claim depends on locale-specific collation.
* JS `Array.prototype.sort` (guaranteed stable since ES2019) with a
  comparator `c` is modelled by `List.mergeSort` with the total relation
  `fun a b => c a b ≤ 0`; a comparator result of `NaN` acts as `0`,
  exactly as in the ECMAScript `SortCompare` specification.
-/

/-- The status strings that occur at runtime in the component: the three
members of the declared `Status` union of `types.ts` plus the `"INACTIVE"`
literal that the filter select and the View Details button pass (cast
through the `Status` type). -/
inductive StatusV : Type
  | ACTIVE
  | INVITED
  | BLOCKED
  | INACTIVE
deriving DecidableEq

/-- Membership in the `Status` union declared in `types.ts`
(`"ACTIVE" | "INVITED" | "BLOCKED"`). -/
def StatusV.declared (s : StatusV) : Prop :=
  s = StatusV.ACTIVE ∨ s = StatusV.INVITED ∨ s = StatusV.BLOCKED

instance (s : StatusV) : Decidable s.declared := by
  unfold StatusV.declared; infer_instance

/-- The string value of a status, as compared by `localeCompare` when
sorting on the status column. -/
def StatusV.str : StatusV → String
  | StatusV.ACTIVE => "ACTIVE"
  | StatusV.INVITED => "INVITED"
  | StatusV.BLOCKED => "BLOCKED"
  | StatusV.INACTIVE => "INACTIVE"

/-- The `about` part of a record (`types.ts`). -/
structure About where
  name : String
  status : StatusV
  email : String
deriving DecidableEq

/-- The `details` part of a record (`types.ts`). -/
structure Details where
  date : String
  invitedBy : String
deriving DecidableEq

/-- A user record (`types.ts`). -/
structure Record where
  id : String
  about : About
  details : Details
deriving DecidableEq

/-! ## Date machinery -/

/-- JS `parseInt(s)`: skip leading whitespace, read an optional sign and
then the longest prefix of decimal digits, ignoring anything after it.
`none` models the `NaN` result when no digit is found. -/
def jsParseInt (s : String) : Option Int :=
  let cs := s.toList.dropWhile Char.isWhitespace
  let signAndRest : Int × List Char :=
    match cs with
    | '-' :: rest => (-1, rest)
    | '+' :: rest => (1, rest)
    | rest => (1, rest)
  let digits := signAndRest.2.takeWhile Char.isDigit
  if digits.isEmpty then none
  else some (signAndRest.1 * digits.foldl (fun n c => n * 10 + ((c.toNat - 48 : Nat) : Int)) 0)

/-- The month lookup table of `parseDate`: maps the twelve three-letter
English abbreviations to 0-based month indices; `none` models the
`undefined` result of a failed lookup. -/
def months (s : String) : Option Int :=
  match s with
  | "Jan" => some 0
  | "Feb" => some 1
  | "Mar" => some 2
  | "Apr" => some 3
  | "May" => some 4
  | "Jun" => some 5
  | "Jul" => some 6
  | "Aug" => some 7
  | "Sep" => some 8
  | "Oct" => some 9
  | "Nov" => some 10
  | "Dec" => some 11
  | _ => none

/-- Days since 1970-01-01 of the civil date `(y, m, d)` with `m ∈ [1,12]`.
`d` may lie outside the month; the result is affine in `d`, which matches
the day-overflow normalization of the JS `Date` constructor. -/
def daysFromCivil (y m d : Int) : Int :=
  let y2 := if m ≤ 2 then y - 1 else y
  let era := Int.ediv y2 400
  let yoe := y2 - era * 400
  let mp := Int.emod (m + 9) 12
  let doy := Int.ediv (153 * mp + 2) 5 + d - 1
  let doe := yoe * 365 + Int.ediv yoe 4 - Int.ediv yoe 100 + doy
  era * 146097 + doe - 719468

/-- `new Date(year, month, day)` at local midnight, as a civil day number.
`month` is 0-based (the component only passes values from `months`).
A `year` in `[0, 99]` is interpreted as `1900 + year`, as the `Date`
constructor does. -/
def jsMakeDate (year month day : Int) : Int :=
  let y := if 0 ≤ year ∧ year ≤ 99 then year + 1900 else year
  daysFromCivil y (month + 1) day

/-- Split a character list at every occurrence of `sep`, keeping empty
segments, as JS `split` does. -/
def splitChars (sep : Char) : List Char → List Char → List (List Char)
  | [], acc => [acc.reverse]
  | c :: cs, acc =>
    if c = sep then acc.reverse :: splitChars sep cs []
    else splitChars sep cs (c :: acc)

/-- JS `s.split(" ")`. -/
def jsSplitSpace (s : String) : List String :=
  (splitChars ' ' s.toList []).map String.mk

/-- `parseDate` of `Table.tsx`: split on single spaces, parse the day,
month abbreviation and year from the first three parts, and build
`new Date(year, month, day)`. `none` models an Invalid Date (some
argument `NaN`/`undefined`); a missing part behaves like `undefined`,
whose `parseInt`/table lookup also fails. -/
def parseDate (dateString : String) : Option Int :=
  let parts := jsSplitSpace dateString
  match jsParseInt (parts.getD 0 ""), months (parts.getD 1 ""), jsParseInt (parts.getD 2 "") with
  | some day, some month, some year => some (jsMakeDate year month day)
  | _, _, _ => none

/-- Milliseconds per day; `getTime()` of a civil-day value `d` is
`d * msPerDay`. -/
def msPerDay : Int := 86400000

/-- `getTime()` of the parsed date of a record, in milliseconds;
`none` models `NaN`. -/
def recordTime (r : Record) : Option Int :=
  (parseDate r.details.date).map (· * msPerDay)

/-! ## Filter stage -/

/-- The filter portion of the component state.  `filterStatus = none`
models the `"ALL"` value; `dateFrom`/`dateTo` hold the civil day number
of a set `yyyy-mm-dd` date input, `none` modelling the empty string. -/
structure FilterState where
  filterStatus : Option StatusV
  searchName : String
  dateFrom : Option Int
  dateTo : Option Int
deriving DecidableEq

/-- JS `s.toLowerCase()`, modelled by ASCII case folding. -/
def jsToLower (s : String) : String :=
  String.mk (s.toList.map Char.toLower)

/-- JS `s.includes(sub)`: `sub` occurs contiguously in `s`. -/
def jsIncludes (s sub : String) : Bool :=
  decide (sub.toList <:+: s.toList)

/-- The date-range part of the filter predicate of `filteredData`.
When a bound is set, the record's parsed date (already at local
midnight, so `setHours(0,0,0,0)` is the identity) is compared with
`fromDate` at 00:00:00.000 and `toDate` at 23:59:59.999; a comparison
against an Invalid Date (`none`) is false, as `NaN` comparisons are. -/
def dateMatch (dFrom dTo : Option Int) (r : Record) : Bool :=
  if dFrom.isSome || dTo.isSome then
    (match dFrom with
      | some f =>
        match recordTime r with
        | some t => decide (f * msPerDay ≤ t)
        | none => false
      | none => true) &&
    (match dTo with
      | some b =>
        match recordTime r with
        | some t => decide (t ≤ b * msPerDay + (msPerDay - 1))
        | none => false
      | none => true)
  else true

/-- The filter predicate of `filteredData`: `statusMatch` (the filter is
`ALL` or equals the record status) and `nameMatch` (case-folded substring
on the name) and `dateMatch`. -/
def passes (fs : FilterState) (r : Record) : Bool :=
  (decide (fs.filterStatus = none) || decide (fs.filterStatus = some r.about.status)) &&
  jsIncludes (jsToLower r.about.name) (jsToLower fs.searchName) &&
  dateMatch fs.dateFrom fs.dateTo r

/-- `filteredData` of `Table.tsx`. -/
def filteredData (fs : FilterState) (records : List Record) : List Record :=
  records.filter (passes fs)

/-! ## Sort stage -/

/-- The sortable columns (`SortField` of `Table.tsx`). -/
inductive SortField
  | name
  | email
  | date
  | invitedBy
  | status
deriving DecidableEq

/-- Sort direction (`SortDirection` of `Table.tsx`). -/
inductive SortDirection
  | asc
  | desc
deriving DecidableEq

/-- `localeCompare`, modelled by code-point comparison; no claim depends
on locale collation details. -/
def strCompare (a b : String) : Int :=
  if a < b then -1 else if b < a then 1 else 0

/-- `sortDirection === "asc" ? comparison : -comparison`. -/
def dirSign (dir : SortDirection) (c : Int) : Int :=
  if dir = SortDirection.asc then c else -c

/-- The comparator passed to `sort` by `sortedData`.  With no sort field
it returns 0; the `date` column compares parsed timestamps, where a
`NaN` difference (Invalid Date) acts as 0 under `SortCompare`. -/
def recCompare (sf : Option SortField) (dir : SortDirection) (a b : Record) : Int :=
  match sf with
  | none => 0
  | some SortField.name => dirSign dir (strCompare a.about.name b.about.name)
  | some SortField.email => dirSign dir (strCompare a.about.email b.about.email)
  | some SortField.date =>
    match recordTime a, recordTime b with
    | some x, some y => if dir = SortDirection.asc then x - y else y - x
    | _, _ => 0
  | some SortField.invitedBy => dirSign dir (strCompare a.details.invitedBy b.details.invitedBy)
  | some SortField.status => dirSign dir (strCompare a.about.status.str b.about.status.str)

/-- The stable sort `[...filteredData].sort(comparator)`: JS sort is
stable (ES2019), so it is modelled by `mergeSort` with the relation
"the comparator does not put `b` strictly before `a`". -/
def sortRecords (sf : Option SortField) (dir : SortDirection) (l : List Record) : List Record :=
  l.mergeSort (fun a b => decide (recCompare sf dir a b ≤ 0))

/-- `sortedData` of `Table.tsx`. -/
def sortedData (fs : FilterState) (sf : Option SortField) (dir : SortDirection)
    (records : List Record) : List Record :=
  sortRecords sf dir (filteredData fs records)

/-! ## Pagination stage -/

/-- `recordsPerPage = 10`. -/
def recordsPerPage : Nat := 10

/-- `totalPages = Math.ceil(sortedData.length / recordsPerPage)`. -/
def totalPages (l : List Record) : Nat :=
  (l.length + (recordsPerPage - 1)) / recordsPerPage

/-- JS `Array.prototype.slice(start, stop)`, with the negative-index
normalization of the ECMAScript specification. -/
def jsSlice (l : List Record) (start stop : Int) : List Record :=
  let len : Int := l.length
  let s := if start < 0 then max (len + start) 0 else min start len
  let e := if stop < 0 then max (len + stop) 0 else min stop len
  (l.drop s.toNat).take (e - s).toNat

/-- `currentRecords = sortedData.slice(startIndex, endIndex)`. -/
def currentRecords (page : Int) (l : List Record) : List Record :=
  let startIndex := (page - 1) * (recordsPerPage : Int)
  let endIndex := startIndex + (recordsPerPage : Int)
  jsSlice l startIndex endIndex

/-! ## Component state and event handlers -/

/-- The `useState` cells of the `Table` component. -/
structure UIState where
  records : List Record
  sortField : Option SortField
  sortDirection : SortDirection
  currentPage : Int
  filterStatus : Option StatusV
  searchName : String
  dateFrom : Option Int
  dateTo : Option Int
deriving DecidableEq

/-- The filter portion of the state. -/
def UIState.filterState (s : UIState) : FilterState :=
  ⟨s.filterStatus, s.searchName, s.dateFrom, s.dateTo⟩

/-- The derived sorted/filtered sequence of a state. -/
def UIState.sorted (s : UIState) : List Record :=
  sortedData s.filterState s.sortField s.sortDirection s.records

/-- `handleSort`: toggles the direction on the active field, otherwise
selects the new field ascending.  It does not touch `currentPage`. -/
def handleSort (field : SortField) (s : UIState) : UIState :=
  if s.sortField = some field then
    { s with
      sortDirection :=
        if s.sortDirection = SortDirection.asc then SortDirection.desc else SortDirection.asc }
  else
    { s with sortField := some field, sortDirection := SortDirection.asc }

/-- `handleClearFilters`. -/
def handleClearFilters (s : UIState) : UIState :=
  { s with filterStatus := none, searchName := "", dateFrom := none, dateTo := none,
           currentPage := 1 }

/-- `handleStatusUpdate`: map over the store, replacing the status of
every record whose `id` equals `recordId`. -/
def handleStatusUpdate (recordId : String) (newStatus : StatusV)
    (records : List Record) : List Record :=
  records.map fun r =>
    if r.id = recordId then { r with about := { r.about with status := newStatus } } else r

/-- `onChange` of the search input: set the text and reset the page. -/
def onSearchChange (v : String) (s : UIState) : UIState :=
  { s with searchName := v, currentPage := 1 }

/-- `onChange` of the status select: set the filter and reset the page. -/
def onFilterStatusChange (v : Option StatusV) (s : UIState) : UIState :=
  { s with filterStatus := v, currentPage := 1 }

/-- `onChange` of the from-date input. -/
def onDateFromChange (v : Option Int) (s : UIState) : UIState :=
  { s with dateFrom := v, currentPage := 1 }

/-- `onChange` of the to-date input. -/
def onDateToChange (v : Option Int) (s : UIState) : UIState :=
  { s with dateTo := v, currentPage := 1 }

/-- `Math.max` on the integer values that occur here. -/
def jsMax (a b : Int) : Int := if a < b then b else a

/-- `Math.min` on the integer values that occur here. -/
def jsMin (a b : Int) : Int := if a < b then a else b

/-- The Previous button: `setCurrentPage(prev => Math.max(prev - 1, 1))`. -/
def onPrevPage (s : UIState) : UIState :=
  { s with currentPage := jsMax (s.currentPage - 1) 1 }

/-- The Next button: `setCurrentPage(prev => Math.min(prev + 1, totalPages))`. -/
def onNextPage (s : UIState) : UIState :=
  { s with currentPage := jsMin (s.currentPage + 1) ((totalPages s.sorted : Int)) }

/-- A row action button: update the status of the clicked record.  The
three buttons pass `"BLOCKED"` (Block), `"ACTIVE"` (Activate) and
`"INACTIVE"` (View Details). -/
def onStatusUpdate (rid : String) (st : StatusV) (s : UIState) : UIState :=
  { s with records := handleStatusUpdate rid st s.records }

/-- The user interactions the component exposes. -/
inductive UIAction
  | search (v : String)
  | setFilterStatus (v : Option StatusV)
  | setDateFrom (v : Option Int)
  | setDateTo (v : Option Int)
  | clearFilters
  | sortBy (f : SortField)
  | prevPage
  | nextPage
  | statusUpdate (rid : String) (st : StatusV)

/-- The state transition of one user interaction. -/
def step : UIAction → UIState → UIState
  | UIAction.search v, s => onSearchChange v s
  | UIAction.setFilterStatus v, s => onFilterStatusChange v s
  | UIAction.setDateFrom v, s => onDateFromChange v s
  | UIAction.setDateTo v, s => onDateToChange v s
  | UIAction.clearFilters, s => handleClearFilters s
  | UIAction.sortBy f, s => handleSort f s
  | UIAction.prevPage, s => onPrevPage s
  | UIAction.nextPage, s => onNextPage s
  | UIAction.statusUpdate rid st, s => onStatusUpdate rid st s

/-- Whether an action is a status update (a row action button). -/
def UIAction.isStatusUpdate : UIAction → Bool
  | UIAction.statusUpdate _ _ => true
  | _ => false

/-- The initial component state for a given data prop. -/
def initState (data : List Record) : UIState :=
  { records := data, sortField := none, sortDirection := SortDirection.asc,
    currentPage := 1, filterStatus := none, searchName := "",
    dateFrom := none, dateTo := none }

/-- States reachable from `init` by the pagination navigation controls
and the filter/sort/clear actions (no status updates). -/
inductive NavReach (init : UIState) : UIState → Prop
  | refl : NavReach init init
  | tail (a : UIAction) (s : UIState) (h : a.isStatusUpdate = false)
      (hs : NavReach init s) : NavReach init (step a s)

/-! ## Aggregate statistics -/

/-- `totalUsers = records.length`. -/
def totalUsers (records : List Record) : Nat := records.length

/-- Count of records with status `ACTIVE`. -/
def activeCount (records : List Record) : Nat :=
  (records.filter fun r => decide (r.about.status = StatusV.ACTIVE)).length

/-- Count of records with status `INACTIVE`. -/
def inactiveCount (records : List Record) : Nat :=
  (records.filter fun r => decide (r.about.status = StatusV.INACTIVE)).length

/-- Count of records with status `BLOCKED`. -/
def blockedCount (records : List Record) : Nat :=
  (records.filter fun r => decide (r.about.status = StatusV.BLOCKED)).length

/-- JS division on the rationals that occur here; `none` models the
non-finite result of dividing by 0 (`0/0 = NaN`; the only dividend that
occurs with a zero divisor is a count of an empty list, hence 0). -/
def jsDiv (a b : ℚ) : Option ℚ :=
  if b = 0 then none else some (a / b)

/-- `((inactiveCount / totalUsers) * 100).toFixed(0)`, as its numeric
value: `toFixed(0)` rounds half away from zero for the non-negative
values that occur, i.e. `round`; `none` models the `"NaN"` output. -/
def inactivePercentage (records : List Record) : Option Int :=
  (jsDiv (inactiveCount records : ℚ) (totalUsers records : ℚ)).map fun q => round (q * 100)

/-- `((blockedCount / totalUsers) * 100).toFixed(0)`, numerically. -/
def blockedPercentage (records : List Record) : Option Int :=
  (jsDiv (blockedCount records : ℚ) (totalUsers records : ℚ)).map fun q => round (q * 100)

/-! ## Concrete stores used as witnesses -/

/-- A one-record store. -/
def exStore1 : List Record :=
  [{ id := "1",
     about := { name := "Ann", status := StatusV.ACTIVE, email := "ann@demo.com" },
     details := { date := "05 Mar 2024", invitedBy := "Bob" } }]

/-- A store of eleven well-formed records (two pages). -/
def exStore11 : List Record :=
  (List.range 11).map fun _ =>
    { id := "x",
      about := { name := "User", status := StatusV.ACTIVE, email := "user@demo.com" },
      details := { date := "05 Mar 2024", invitedBy := "Admin" } }

/-! ## Shared helper lemmas -/

/-- `handleSort` never touches the current page. -/
theorem currentPage_handleSort (f : SortField) (s : UIState) :
    (handleSort f s).currentPage = s.currentPage := by
  unfold handleSort; split <;> rfl

/-- `handleSort` never touches the record store. -/
theorem records_handleSort (f : SortField) (s : UIState) :
    (handleSort f s).records = s.records := by
  unfold handleSort; split <;> rfl

/-- `handleSort` never touches the filter portion of the state. -/
theorem filterState_handleSort (f : SortField) (s : UIState) :
    (handleSort f s).filterState = s.filterState := by
  unfold handleSort; split <;> rfl

/-- Sorting does not change the length of the sequence. -/
theorem length_sortRecords (sf : Option SortField) (dir : SortDirection) (l : List Record) :
    (sortRecords sf dir l).length = l.length :=
  List.length_mergeSort l

/-- The page count of a state depends only on the filtered length. -/
theorem pages_eq_of_filtered (s : UIState) :
    totalPages (UIState.sorted s) =
      (((filteredData s.filterState s.records).length + (recordsPerPage - 1)) / recordsPerPage) := by
  unfold totalPages UIState.sorted sortedData
  rw [length_sortRecords]

/-- `handleSort` preserves the page count. -/
theorem pages_handleSort (f : SortField) (s : UIState) :
    totalPages (UIState.sorted (handleSort f s)) = totalPages (UIState.sorted s) := by
  rw [pages_eq_of_filtered, pages_eq_of_filtered, filterState_handleSort, records_handleSort]

/-! ## C2 — totalPages -/

/-- C2 (counterexample): the claim asserts `totalPages ≥ 1` even for an
empty sequence, but `Math.ceil(0 / 10) = 0`: the code has no 1-minimum. -/
theorem c2_cex : ¬ (1 ≤ totalPages ([] : List Record)) := by decide

/-- C2 (amended): `totalPages` equals `⌈n / 10⌉` exactly — in particular
it is `0`, not `1`, when the sorted/filtered sequence is empty. -/
theorem c2_totalPages (l : List Record) :
    (totalPages l : ℤ) = ⌈(l.length : ℚ) / 10⌉ := by
  have hp : totalPages l = (l.length + 9) / 10 := rfl
  rw [hp, eq_comm, Int.ceil_eq_iff]
  set n := l.length with hn
  set k := (n + 9) / 10 with hk
  have h1 : n ≤ 10 * k := by omega
  have h2 : 10 * k ≤ n + 9 := by omega
  have hc1 : (10 : ℚ) * (k : ℚ) ≤ (n : ℚ) + 9 := by exact_mod_cast h2
  have hc2 : (n : ℚ) ≤ (10 : ℚ) * (k : ℚ) := by exact_mod_cast h1
  constructor
  · rw [lt_div_iff₀ (by norm_num : (0:ℚ) < 10)]
    push_cast
    linarith
  · rw [div_le_iff₀ (by norm_num : (0:ℚ) < 10)]
    push_cast
    linarith

/-! ## C3 — page reset -/

/-- C3 (counterexample): on a two-page store, after moving to page 2,
`handleSort` changes the sort criterion but leaves `currentPage = 2`:
sorting does not reset the page, contrary to the claim. -/
theorem c3_cex :
    (handleSort SortField.name (step UIAction.nextPage (initState exStore11))).currentPage ≠ 1 := by
  have hpages : totalPages (UIState.sorted (initState exStore11)) = 2 := by
    rw [pages_eq_of_filtered]; decide
  have h2 : (step UIAction.nextPage (initState exStore11)).currentPage = 2 := by
    show jsMin (1 + 1) ((totalPages (UIState.sorted (initState exStore11)) : Int)) = 2
    rw [hpages]; decide
  rw [currentPage_handleSort, h2]
  decide

/-- C3 (amended): every filter-criterion change (search text, status
filter, dateFrom, dateTo) and Clear All Filters resets `currentPage`
to 1, but `handleSort` leaves `currentPage` unchanged. -/
theorem c3_page_reset (s : UIState) :
    (∀ v, (onSearchChange v s).currentPage = 1) ∧
    (∀ v, (onFilterStatusChange v s).currentPage = 1) ∧
    (∀ v, (onDateFromChange v s).currentPage = 1) ∧
    (∀ v, (onDateToChange v s).currentPage = 1) ∧
    (handleClearFilters s).currentPage = 1 ∧
    (∀ f, (handleSort f s).currentPage = s.currentPage) :=
  ⟨fun _ => rfl, fun _ => rfl, fun _ => rfl, fun _ => rfl, rfl,
    fun f => currentPage_handleSort f s⟩

/-! ## C7 — status enumeration -/

/-- C7 (code bug): the View Details button calls
`handleStatusUpdate(record.id, "INACTIVE")`, so one click drives a
record's status to `INACTIVE`, outside the `Status` union declared in
`types.ts` — the code contradicts its own type declarations. -/
theorem c7_inactive_reachable :
    ((step (UIAction.statusUpdate "1" StatusV.INACTIVE) (initState exStore1)).records.map
      fun r => r.about.status) = [StatusV.INACTIVE] ∧
    ¬ StatusV.INACTIVE.declared := by
  exact ⟨rfl, by decide⟩

/-! ## C10 — purity of the derived pipeline -/

/-- C10: in the state-machine semantics, the no-mutation property of the
derived pipeline (filter, sort on a fresh copy, page count, page slice)
is the frame condition that every interaction other than a row
status-update leaves the record store untouched. -/
theorem c10_store_frame (a : UIAction) (s : UIState)
    (h : a.isStatusUpdate = false) :
    (step a s).records = s.records := by
  cases a with
  | sortBy f => exact records_handleSort f s
  | statusUpdate rid st => simp [UIAction.isStatusUpdate] at h
  | _ => rfl

/-- Witness for `c10_store_frame` at a concrete non-update action. -/
theorem c10_store_frame_witness :
    (UIAction.prevPage.isStatusUpdate = false) ∧
    (step UIAction.prevPage (initState exStore11)).records = (initState exStore11).records :=
  ⟨rfl, c10_store_frame _ _ rfl⟩

/-! ## C8 — percentage statistics -/

/-- C8 (counterexample): on an empty Record Store the code computes
`(0 / 0) * 100`, i.e. `NaN` (modelled `none`), and renders `"NaN%"`:
the percentages do not degrade to 0. -/
theorem c8_cex :
    inactivePercentage ([] : List Record) = none ∧
    blockedPercentage ([] : List Record) = none ∧
    inactivePercentage ([] : List Record) ≠ some 0 ∧
    blockedPercentage ([] : List Record) ≠ some 0 := by
  refine ⟨?_, ?_, ?_, ?_⟩ <;>
    simp [inactivePercentage, blockedPercentage, jsDiv, totalUsers, inactiveCount, blockedCount]

/-- C8 (amended): for a nonempty store each percentage equals
`round(count / total * 100)` with zero decimals; for an empty store the
code yields `NaN` (modelled `none`), not 0. -/
theorem c8_percentages (records : List Record) (h : records ≠ []) :
    inactivePercentage records =
      some (round ((inactiveCount records : ℚ) / (totalUsers records : ℚ) * 100)) ∧
    blockedPercentage records =
      some (round ((blockedCount records : ℚ) / (totalUsers records : ℚ) * 100)) := by
  have hlen : totalUsers records ≠ 0 := by
    unfold totalUsers
    intro hh
    exact h (List.length_eq_zero.mp hh)
  have h0 : (totalUsers records : ℚ) ≠ 0 := by exact_mod_cast hlen
  unfold inactivePercentage blockedPercentage jsDiv
  rw [if_neg h0, if_neg h0]
  exact ⟨rfl, rfl⟩

/-- Witness for `c8_percentages` on a concrete one-record store. -/
theorem c8_percentages_witness :
    exStore1 ≠ [] ∧
    (inactivePercentage exStore1 =
      some (round ((inactiveCount exStore1 : ℚ) / (totalUsers exStore1 : ℚ) * 100)) ∧
     blockedPercentage exStore1 =
      some (round ((blockedCount exStore1 : ℚ) / (totalUsers exStore1 : ℚ) * 100))) :=
  ⟨by decide, c8_percentages exStore1 (by decide)⟩

/-! ## C9 — malformed date strings -/

/-- A date string of the form `"<day> <3-letter month> <year>"` with one
of the twelve month abbreviations — the form named by the claim
(specification-side definition, used to refute the claim as stated). -/
def specFormDate (s : String) : Bool :=
  match jsSplitSpace s with
  | [d, m, y] =>
    (!d.isEmpty && d.toList.all Char.isDigit) &&
    (months m).isSome &&
    (!y.isEmpty && y.toList.all Char.isDigit)
  | _ => false

/-- A record whose date string is not of the spec's form but still
parses: `parseDate` reads only the first three space-separated parts. -/
def exJunkRec : Record :=
  { id := "9",
    about := { name := "Cara", status := StatusV.ACTIVE, email := "cara@demo.com" },
    details := { date := "05 Mar 2024 junk", invitedBy := "Bob" } }

/-- A filter whose from-date bound is set to 2024-03-01. -/
def exFromFilter : FilterState :=
  { filterStatus := none, searchName := "", dateFrom := some (daysFromCivil 2024 3 1),
    dateTo := none }

/-- C9 (counterexample): `"05 Mar 2024 junk"` is not of the claimed
form, yet `parseDate` parses it to 2024-03-05, and a record carrying it
passes a filter in which a dateFrom bound is set — it is not excluded. -/
theorem c9_cex :
    specFormDate "05 Mar 2024 junk" = false ∧
    parseDate "05 Mar 2024 junk" = some (daysFromCivil 2024 3 5) ∧
    exFromFilter.dateFrom.isSome = true ∧
    passes exFromFilter exJunkRec = true := by decide

/-- A record whose date string fails to parse entirely. -/
def exBadRec : Record :=
  { id := "8",
    about := { name := "Eve", status := StatusV.ACTIVE, email := "eve@demo.com" },
    details := { date := "hello world", invitedBy := "Bob" } }

/-- C9 (amended): `parseDate` is a total function (never throws), and
whenever it fails — first part without a digit prefix, second part not a
month abbreviation, or third part missing or without a digit prefix —
the resulting Invalid Date is excluded from date-range matching: the
record passes no filter in which a date bound is set.  (A string may
deviate from the documented form elsewhere, e.g. by trailing junk, and
still parse.) -/
theorem c9_invalid_excluded (fs : FilterState) (r : Record)
    (hparse : parseDate r.details.date = none)
    (hbound : fs.dateFrom.isSome = true ∨ fs.dateTo.isSome = true) :
    passes fs r = false := by
  have ht : recordTime r = none := by unfold recordTime; rw [hparse]; rfl
  have hdm : dateMatch fs.dateFrom fs.dateTo r = false := by
    unfold dateMatch
    rw [ht]
    rcases hbound with hb | hb
    · rw [if_pos (by rw [hb]; rfl)]
      rcases hf : fs.dateFrom with _ | f
      · rw [hf] at hb; simp at hb
      · simp
    · rw [if_pos (by rw [hb]; simp)]
      rcases hb2 : fs.dateTo with _ | b
      · rw [hb2] at hb; simp at hb
      · rcases fs.dateFrom with _ | f <;> simp
  unfold passes
  rw [hdm]
  simp

/-- Witness for `c9_invalid_excluded` on a concrete unparsable record. -/
theorem c9_invalid_excluded_witness :
    parseDate exBadRec.details.date = none ∧
    (exFromFilter.dateFrom.isSome = true ∨ exFromFilter.dateTo.isSome = true) ∧
    passes exFromFilter exBadRec = false :=
  ⟨by decide, Or.inl (by decide),
    c9_invalid_excluded exFromFilter exBadRec (by decide) (Or.inl (by decide))⟩

/-! ## C1 — the filter contract -/

/-- The filter contract as the specification states it: the status
filter is `ALL` or equals the record's status; the case-folded search
string is a substring of the case-folded name; and no date bound is
set, or the record's parsed date (at start of day) lies within
`[from 00:00:00.000, to 23:59:59.999]`, using only the bounds set. -/
def specPasses (fs : FilterState) (r : Record) : Prop :=
  (fs.filterStatus = none ∨ fs.filterStatus = some r.about.status) ∧
  ((jsToLower fs.searchName).toList <:+: (jsToLower r.about.name).toList) ∧
  ((fs.dateFrom = none ∧ fs.dateTo = none) ∨
    ∃ d, parseDate r.details.date = some d ∧
      (∀ f, fs.dateFrom = some f → f * msPerDay ≤ d * msPerDay) ∧
      (∀ b, fs.dateTo = some b → d * msPerDay ≤ b * msPerDay + (msPerDay - 1)))

/-- The date-range part of the code agrees with the date-range part of
the contract. -/
theorem dateMatch_iff (dFrom dTo : Option Int) (r : Record) :
    dateMatch dFrom dTo r = true ↔
      ((dFrom = none ∧ dTo = none) ∨
        ∃ d, parseDate r.details.date = some d ∧
          (∀ f, dFrom = some f → f * msPerDay ≤ d * msPerDay) ∧
          (∀ b, dTo = some b → d * msPerDay ≤ b * msPerDay + (msPerDay - 1))) := by
  rcases hf : dFrom with _ | f <;> rcases hb : dTo with _ | b <;>
    rcases hp : parseDate r.details.date with _ | d <;>
      have ht : recordTime r = (parseDate r.details.date).map (· * msPerDay) := rfl <;>
        rw [hp] at ht <;>
          simp [dateMatch, ht, hp]

/-- The code's filter predicate decides the specification's contract. -/
theorem passes_iff (fs : FilterState) (r : Record) :
    passes fs r = true ↔ specPasses fs r := by
  unfold passes specPasses jsIncludes
  simp only [Bool.and_eq_true, Bool.or_eq_true, decide_eq_true_eq]
  rw [dateMatch_iff]
  tauto

instance specPassesDec (fs : FilterState) (r : Record) : Decidable (specPasses fs r) :=
  decidable_of_iff (passes fs r = true) (passes_iff fs r)

/-- C1: `filteredData` returns exactly the subsequence, in the Record
Store's original relative order, of the records satisfying the
specification's filter contract. -/
theorem c1_filter_contract (fs : FilterState) (records : List Record) :
    List.Sublist (filteredData fs records) records ∧
    filteredData fs records = records.filter fun r => decide (specPasses fs r) := by
  unfold filteredData
  refine ⟨List.filter_sublist records, ?_⟩
  apply List.filter_congr
  intro r _
  by_cases h : specPasses fs r
  · rw [(passes_iff fs r).mpr h, decide_eq_true h]
  · rw [decide_eq_false h]
    cases hp : passes fs r
    · rfl
    · exact absurd ((passes_iff fs r).mp hp) h

/-! ## C6 — the status-update frame -/

/-- `handleStatusUpdate` leaves a store that does not contain the target
id entirely unchanged. -/
theorem handleStatusUpdate_of_not_mem (rid : String) (st : StatusV) :
    ∀ l : List Record, rid ∉ l.map Record.id → handleStatusUpdate rid st l = l := by
  intro l h
  induction l with
  | nil => rfl
  | cons a rest ih =>
    simp only [List.map_cons, List.mem_cons, not_or] at h
    have hstep : handleStatusUpdate rid st (a :: rest) =
        (if a.id = rid then { a with about := { a.about with status := st } } else a) ::
          handleStatusUpdate rid st rest := rfl
    rw [hstep, if_neg (fun hh => h.1 hh.symm), ih h.2]

/-- `blockedCount` of a cons. -/
theorem blockedCount_cons (x : Record) (l : List Record) :
    blockedCount (x :: l) =
      (if x.about.status = StatusV.BLOCKED then 1 else 0) + blockedCount l := by
  by_cases h : x.about.status = StatusV.BLOCKED <;>
    simp [blockedCount, List.filter_cons, h, Nat.add_comm]

/-- Updating the unique record with the target id to `BLOCKED` raises
the blocked count by one unless that record was already blocked. -/
theorem blockedCount_update (rid : String) (r0 : Record) :
    ∀ records : List Record, (records.map Record.id).Nodup → r0 ∈ records → r0.id = rid →
    blockedCount (handleStatusUpdate rid StatusV.BLOCKED records) =
      (if r0.about.status = StatusV.BLOCKED then blockedCount records
       else blockedCount records + 1) := by
  intro records
  induction records with
  | nil => intro _ h; cases h
  | cons a rest ih =>
    intro hnodup hr0 hid
    rw [List.map_cons, List.nodup_cons] at hnodup
    obtain ⟨hna, hnrest⟩ := hnodup
    have hstep : handleStatusUpdate rid StatusV.BLOCKED (a :: rest) =
        (if a.id = rid then { a with about := { a.about with status := StatusV.BLOCKED } } else a) ::
          handleStatusUpdate rid StatusV.BLOCKED rest := rfl
    by_cases ha : a.id = rid
    · have hrest : rid ∉ rest.map Record.id := by rw [← ha]; exact hna
      have hr0a : r0 = a := by
        rcases List.mem_cons.mp hr0 with h | hmem
        · exact h
        · have : r0.id ∈ rest.map Record.id := List.mem_map_of_mem Record.id hmem
          rw [hid] at this
          exact absurd this hrest
      subst hr0a
      rw [hstep, if_pos ha, handleStatusUpdate_of_not_mem _ _ _ hrest,
          blockedCount_cons, blockedCount_cons]
      by_cases hb : r0.about.status = StatusV.BLOCKED <;> simp [hb] <;> omega
    · have hr0rest : r0 ∈ rest := by
        rcases List.mem_cons.mp hr0 with h | hmem
        · subst h; exact absurd hid ha
        · exact hmem
      rw [hstep, if_neg ha, blockedCount_cons, blockedCount_cons,
          ih hnrest hr0rest hid]
      by_cases hb : r0.about.status = StatusV.BLOCKED <;> simp [hb] <;> omega

/-- C6: the status update is pointwise — position `i` holds the original
record, with only `about.status` replaced when its id is the target; a
record with another id is a member unchanged; all other fields of the
replacement are those of the original; and (ids being unique) updating
the record with the target id to `BLOCKED` raises the blocked count by
one exactly when it was not already blocked. -/
theorem c6_status_update (records : List Record) (rid : String) (st : StatusV)
    (hmem : rid ∈ records.map Record.id)
    (hnodup : (records.map Record.id).Nodup) :
    (∀ i : Nat, (handleStatusUpdate rid st records)[i]? =
      (records[i]?).map fun r =>
        if r.id = rid then { r with about := { r.about with status := st } } else r) ∧
    (∀ r ∈ records, r.id ≠ rid → r ∈ handleStatusUpdate rid st records) ∧
    (∀ r : Record,
      ({ r with about := { r.about with status := st } } : Record).id = r.id ∧
      ({ r with about := { r.about with status := st } } : Record).about.name = r.about.name ∧
      ({ r with about := { r.about with status := st } } : Record).about.email = r.about.email ∧
      ({ r with about := { r.about with status := st } } : Record).details = r.details) ∧
    (∀ r ∈ records, r.id = rid →
      blockedCount (handleStatusUpdate rid StatusV.BLOCKED records) =
        (if r.about.status = StatusV.BLOCKED then blockedCount records
         else blockedCount records + 1)) := by
  refine ⟨?_, ?_, fun r => ⟨rfl, rfl, rfl, rfl⟩, ?_⟩
  · intro i
    unfold handleStatusUpdate
    rw [List.getElem?_map]
  · intro r hr hne
    have h2 : (if r.id = rid then { r with about := { r.about with status := st } } else r) ∈
        handleStatusUpdate rid st records :=
      List.mem_map_of_mem _ hr
    rw [if_neg hne] at h2
    exact h2
  · intro r hr hid
    exact blockedCount_update rid r records hnodup hr hid

/-- A two-record store with distinct ids "5" and "7". -/
def exStore2 : List Record :=
  [{ id := "5", about := { name := "Ann", status := StatusV.ACTIVE, email := "ann@demo.com" },
     details := { date := "05 Mar 2024", invitedBy := "Bob" } },
   { id := "7", about := { name := "Dan", status := StatusV.BLOCKED, email := "dan@demo.com" },
     details := { date := "06 Mar 2024", invitedBy := "Bob" } }]

/-- Witness for `c6_status_update`: update record "5" to `BLOCKED` in a
concrete two-record store. -/
theorem c6_status_update_witness :
    ("5" ∈ exStore2.map Record.id) ∧ ((exStore2.map Record.id).Nodup) ∧
    ((∀ i : Nat, (handleStatusUpdate "5" StatusV.BLOCKED exStore2)[i]? =
      (exStore2[i]?).map fun r =>
        if r.id = "5" then { r with about := { r.about with status := StatusV.BLOCKED } } else r) ∧
    (∀ r ∈ exStore2, r.id ≠ "5" → r ∈ handleStatusUpdate "5" StatusV.BLOCKED exStore2) ∧
    (∀ r : Record,
      ({ r with about := { r.about with status := StatusV.BLOCKED } } : Record).id = r.id ∧
      ({ r with about := { r.about with status := StatusV.BLOCKED } } : Record).about.name = r.about.name ∧
      ({ r with about := { r.about with status := StatusV.BLOCKED } } : Record).about.email = r.about.email ∧
      ({ r with about := { r.about with status := StatusV.BLOCKED } } : Record).details = r.details) ∧
    (∀ r ∈ exStore2, r.id = "5" →
      blockedCount (handleStatusUpdate "5" StatusV.BLOCKED exStore2) =
        (if r.about.status = StatusV.BLOCKED then blockedCount exStore2
         else blockedCount exStore2 + 1))) :=
  ⟨by decide, by decide, c6_status_update exStore2 "5" StatusV.BLOCKED (by decide) (by decide)⟩

/-! ## C4 — the page-range invariant -/

/-- Case analysis for `jsMax`. -/
theorem jsMax_cases (a b : Int) :
    (jsMax a b = a ∧ b ≤ a) ∨ (jsMax a b = b ∧ a ≤ b) := by
  unfold jsMax
  split
  · right; exact ⟨rfl, by omega⟩
  · left; exact ⟨rfl, by omega⟩

/-- Case analysis for `jsMin`. -/
theorem jsMin_cases (a b : Int) :
    (jsMin a b = a ∧ a ≤ b) ∨ (jsMin a b = b ∧ b ≤ a) := by
  unfold jsMin
  split
  · left; exact ⟨rfl, by omega⟩
  · right; exact ⟨rfl, by omega⟩

/-- The invariant maintained by the navigation, filter, sort and clear
actions: the page is non-negative, bounded by `max 1 totalPages`, and
at least 1 whenever there is at least one page. -/
def pageInv (s : UIState) : Prop :=
  0 ≤ s.currentPage ∧
  (s.currentPage ≤ 1 ∨ s.currentPage ≤ (totalPages (UIState.sorted s) : Int)) ∧
  (1 ≤ totalPages (UIState.sorted s) → 1 ≤ s.currentPage)

/-- A state whose page is 1 satisfies the invariant. -/
theorem pageInv_of_page_one (s : UIState) (h : s.currentPage = 1) : pageInv s :=
  ⟨by omega, Or.inl (by omega), fun _ => by omega⟩

/-- The invariant holds in every state reachable without status updates. -/
theorem navReach_pageInv (init : UIState) (hinit : init.currentPage = 1) :
    ∀ s, NavReach init s → pageInv s := by
  intro s h
  induction h with
  | refl => exact pageInv_of_page_one init hinit
  | tail a s' ha hs ih =>
    cases a with
    | search v => exact pageInv_of_page_one _ rfl
    | setFilterStatus v => exact pageInv_of_page_one _ rfl
    | setDateFrom v => exact pageInv_of_page_one _ rfl
    | setDateTo v => exact pageInv_of_page_one _ rfl
    | clearFilters => exact pageInv_of_page_one _ rfl
    | sortBy f =>
      show pageInv (handleSort f s')
      unfold pageInv at ih ⊢
      rw [currentPage_handleSort, pages_handleSort]
      exact ih
    | prevPage =>
      show pageInv (onPrevPage s')
      obtain ⟨i0, i1, i2⟩ := ih
      unfold pageInv
      have hpg : totalPages (UIState.sorted (onPrevPage s')) =
          totalPages (UIState.sorted s') := rfl
      have hcp : (onPrevPage s').currentPage = jsMax (s'.currentPage - 1) 1 := rfl
      rw [hpg, hcp]
      rcases jsMax_cases (s'.currentPage - 1) 1 with ⟨he, hle⟩ | ⟨he, hle⟩ <;> rw [he]
      · refine ⟨by omega, ?_, fun _ => by omega⟩
        rcases i1 with i1 | i1
        · exact Or.inl (by omega)
        · exact Or.inr (by omega)
      · exact ⟨by omega, Or.inl (by omega), fun _ => by omega⟩
    | nextPage =>
      show pageInv (onNextPage s')
      obtain ⟨i0, i1, i2⟩ := ih
      unfold pageInv
      have hpg : totalPages (UIState.sorted (onNextPage s')) =
          totalPages (UIState.sorted s') := rfl
      have hcp : (onNextPage s').currentPage =
          jsMin (s'.currentPage + 1) ((totalPages (UIState.sorted s') : Int)) := rfl
      rw [hpg, hcp]
      rcases jsMin_cases (s'.currentPage + 1) ((totalPages (UIState.sorted s') : Int)) with
        ⟨he, hle⟩ | ⟨he, hle⟩ <;> rw [he]
      · exact ⟨by omega, Or.inr (by omega), fun _ => by omega⟩
      · exact ⟨by omega, Or.inr (by omega), fun h1 => by omega⟩
    | statusUpdate rid st => simp [UIAction.isStatusUpdate] at ha

/-- C4 (counterexample): from a one-record store, searching for `"zzz"`
empties the filtered sequence; the reached state has `currentPage = 1`
and `totalPages = 0`, so `currentPage` is not within `[1, totalPages]`,
contrary to the claim. -/
theorem c4_cex :
    NavReach (initState exStore1) (step (UIAction.search "zzz") (initState exStore1)) ∧
    ¬ (1 ≤ (step (UIAction.search "zzz") (initState exStore1)).currentPage ∧
       (step (UIAction.search "zzz") (initState exStore1)).currentPage ≤
         (totalPages (UIState.sorted (step (UIAction.search "zzz") (initState exStore1))) : Int)) := by
  constructor
  · exact NavReach.tail _ _ rfl NavReach.refl
  · rintro ⟨h1, h2⟩
    have hpg : totalPages (UIState.sorted (step (UIAction.search "zzz") (initState exStore1))) = 0 := by
      rw [pages_eq_of_filtered]; decide
    have hcp : (step (UIAction.search "zzz") (initState exStore1)).currentPage = 1 := rfl
    rw [hpg] at h2
    rw [hcp] at h2
    omega

/-- C4 (amended): in every state reachable from the initial state by the
navigation controls and the filter/sort/clear actions, `currentPage` lies
in `[1, totalPages]` whenever the sorted/filtered sequence is nonempty;
when it is empty (`totalPages = 0`) the code instead keeps
`currentPage ∈ [0, 1]` (page 1 over zero pages after a filter change,
and page 0 after pressing Next there). -/
theorem c4_page_range (data : List Record) (s : UIState)
    (h : NavReach (initState data) s) :
    (1 ≤ totalPages (UIState.sorted s) →
      1 ≤ s.currentPage ∧ s.currentPage ≤ (totalPages (UIState.sorted s) : Int)) ∧
    (totalPages (UIState.sorted s) = 0 →
      0 ≤ s.currentPage ∧ s.currentPage ≤ 1) := by
  obtain ⟨i0, i1, i2⟩ := navReach_pageInv (initState data) rfl s h
  constructor
  · intro htp
    refine ⟨i2 htp, ?_⟩
    rcases i1 with i1 | i1
    · have h2 := i2 htp
      omega
    · exact i1
  · intro htp
    rw [htp] at i1
    rcases i1 with i1 | i1 <;> exact ⟨by omega, by omega⟩

/-- Witness for `c4_page_range` at the (reachable) initial state of a
concrete store. -/
theorem c4_page_range_witness :
    NavReach (initState exStore1) (initState exStore1) ∧
    ((1 ≤ totalPages (UIState.sorted (initState exStore1)) →
      1 ≤ (initState exStore1).currentPage ∧
      (initState exStore1).currentPage ≤
        (totalPages (UIState.sorted (initState exStore1)) : Int)) ∧
    (totalPages (UIState.sorted (initState exStore1)) = 0 →
      0 ≤ (initState exStore1).currentPage ∧ (initState exStore1).currentPage ≤ 1)) :=
  ⟨NavReach.refl, c4_page_range exStore1 (initState exStore1) NavReach.refl⟩

/-! ## C5 — date sorting -/

/-- The date-sort key of a record (`getTime()` of its parsed date),
with the convention 0 for an invalid date; it is only used on records
whose dates parse. -/
def timeKey (r : Record) : Int := (recordTime r).getD 0

/-- Ascending date order as a total relation on records. -/
def leAscDate (a b : Record) : Bool := decide (timeKey a ≤ timeKey b)

/-- Descending date order as a total relation on records. -/
def leDescDate (a b : Record) : Bool := decide (timeKey b ≤ timeKey a)

theorem leAscDate_trans : ∀ a b c : Record,
    leAscDate a b → leAscDate b c → leAscDate a c := by
  intro a b c h1 h2
  simp only [leAscDate, decide_eq_true_eq] at h1 h2 ⊢
  omega

theorem leAscDate_total : ∀ a b : Record, leAscDate a b || leAscDate b a := by
  intro a b
  simp only [leAscDate, Bool.or_eq_true, decide_eq_true_eq]
  omega

theorem leDescDate_trans : ∀ a b c : Record,
    leDescDate a b → leDescDate b c → leDescDate a c := by
  intro a b c h1 h2
  simp only [leDescDate, decide_eq_true_eq] at h1 h2 ⊢
  omega

theorem leDescDate_total : ∀ a b : Record, leDescDate a b || leDescDate b a := by
  intro a b
  simp only [leDescDate, Bool.or_eq_true, decide_eq_true_eq]
  omega

/-- `mergeSort` only looks at the relation on elements of the list. -/
theorem mergeSort_congr {l : List Record} {r s : Record → Record → Bool}
    (h : ∀ a ∈ l, ∀ b ∈ l, r a b = s a b) :
    l.mergeSort r = l.mergeSort s := by
  have h2 := List.map_mergeSort (f := id) (l := l) (s := s) (r := r)
    (fun a ha b hb => h a ha b hb)
  simpa using h2

/-- On a list of valid-date records, the ascending date sort is the
stable sort by `leAscDate`. -/
theorem sortRecords_date_asc (l : List Record)
    (hv : ∀ r ∈ l, (recordTime r).isSome = true) :
    sortRecords (some SortField.date) SortDirection.asc l = l.mergeSort leAscDate := by
  unfold sortRecords
  apply mergeSort_congr
  intro a ha b hb
  obtain ⟨x, hx⟩ := Option.isSome_iff_exists.mp (hv a ha)
  obtain ⟨y, hy⟩ := Option.isSome_iff_exists.mp (hv b hb)
  have hc : recCompare (some SortField.date) SortDirection.asc a b = x - y := by
    unfold recCompare
    rw [hx, hy]
    rfl
  rw [hc]
  unfold leAscDate timeKey
  rw [hx, hy]
  simp only [Option.getD_some]
  exact decide_eq_decide.mpr (by omega)

/-- On a list of valid-date records, the descending date sort is the
stable sort by `leDescDate`. -/
theorem sortRecords_date_desc (l : List Record)
    (hv : ∀ r ∈ l, (recordTime r).isSome = true) :
    sortRecords (some SortField.date) SortDirection.desc l = l.mergeSort leDescDate := by
  unfold sortRecords
  apply mergeSort_congr
  intro a ha b hb
  obtain ⟨x, hx⟩ := Option.isSome_iff_exists.mp (hv a ha)
  obtain ⟨y, hy⟩ := Option.isSome_iff_exists.mp (hv b hb)
  have hc : recCompare (some SortField.date) SortDirection.desc a b = y - x := by
    unfold recCompare
    rw [hx, hy]
    rfl
  rw [hc]
  unfold leDescDate timeKey
  rw [hx, hy]
  simp only [Option.getD_some]
  exact decide_eq_decide.mpr (by omega)

/-- With pairwise distinct keys, the descending stable sort is exactly
the reverse of the ascending stable sort. -/
theorem mergeSort_desc_eq_reverse (l : List Record)
    (hd : l.Pairwise fun a b => timeKey a ≠ timeKey b) :
    l.mergeSort leDescDate = (l.mergeSort leAscDate).reverse := by
  have permD := List.mergeSort_perm l leDescDate
  have permA := List.mergeSort_perm l leAscDate
  have sortedD := List.sorted_mergeSort leDescDate_trans leDescDate_total l
  have sortedA := List.sorted_mergeSort leAscDate_trans leAscDate_total l
  have hsym : ∀ {a b : Record}, timeKey a ≠ timeKey b → timeKey b ≠ timeKey a :=
    fun h hc => h hc.symm
  have hdD : (l.mergeSort leDescDate).Pairwise (fun a b => timeKey a ≠ timeKey b) :=
    (List.Perm.pairwise_iff hsym permD).mpr hd
  have hdA : (l.mergeSort leAscDate).Pairwise (fun a b => timeKey a ≠ timeKey b) :=
    (List.Perm.pairwise_iff hsym permA).mpr hd
  have hstrictD : (l.mergeSort leDescDate).Pairwise (fun a b => timeKey b < timeKey a) := by
    refine (sortedD.and hdD).imp ?_
    intro a b h
    obtain ⟨h1, h2⟩ := h
    simp only [leDescDate, decide_eq_true_eq] at h1
    omega
  have hsortedArev : (l.mergeSort leAscDate).reverse.Pairwise (fun a b => leAscDate b a) :=
    List.pairwise_reverse.mpr sortedA
  have hdArev : (l.mergeSort leAscDate).reverse.Pairwise (fun a b => timeKey a ≠ timeKey b) :=
    List.pairwise_reverse.mpr (hdA.imp fun h => hsym h)
  have hstrictArev :
      (l.mergeSort leAscDate).reverse.Pairwise (fun a b => timeKey b < timeKey a) := by
    refine (hsortedArev.and hdArev).imp ?_
    intro a b h
    obtain ⟨h1, h2⟩ := h
    simp only [leAscDate, decide_eq_true_eq] at h1
    omega
  have permDrev : List.Perm (l.mergeSort leDescDate) ((l.mergeSort leAscDate).reverse) :=
    permD.trans (((l.mergeSort leAscDate).reverse_perm).trans permA).symm
  haveI : IsAntisymm Record (fun a b => timeKey b < timeKey a) :=
    ⟨fun a b h1 h2 => ((lt_irrefl _ (lt_trans h1 h2)).elim)⟩
  exact List.eq_of_perm_of_sorted permDrev hstrictD hstrictArev

/-- Stability of the stable sort as preservation of the subsequence of
equal-key records: filtering the sorted list by any key gives the same
list as filtering the input. -/
theorem mergeSort_filter_key (l : List Record) (le : Record → Record → Bool)
    (htrans : ∀ a b c : Record, le a b → le b c → le a c)
    (htotal : ∀ a b : Record, le a b || le b a)
    (p : Record → Bool)
    (hp : ∀ a b : Record, p a → p b → le a b) :
    (l.mergeSort le).filter p = l.filter p := by
  have hpw : (l.filter p).Pairwise fun a b => le a b := by
    apply List.pairwise_of_forall_mem_list
    intro a ha b hb
    exact hp a b (List.of_mem_filter ha) (List.of_mem_filter hb)
  have hsub : List.Sublist (l.filter p) (l.mergeSort le) :=
    List.sublist_mergeSort htrans htotal hpw (List.filter_sublist l)
  have hself : (l.filter p).filter p = l.filter p :=
    List.filter_eq_self.mpr fun a ha => List.of_mem_filter ha
  have hsub2 : List.Sublist (l.filter p) ((l.mergeSort le).filter p) := by
    have h3 := hsub.filter p
    rwa [hself] at h3
  have hlen : ((l.mergeSort le).filter p).length = (l.filter p).length :=
    ((List.mergeSort_perm l le).filter p).length_eq
  exact (hsub2.eq_of_length hlen.symm).symm

/-- C5: on a filtered sequence of records with valid dates, (a) if the
parsed dates are pairwise distinct, sorting by date descending yields
exactly the reverse of sorting ascending, and (b) under either
direction, the records with any given parsed date keep their relative
order from the pre-sort sequence (stability). -/
theorem c5_date_sort (l : List Record)
    (hv : ∀ r ∈ l, (recordTime r).isSome = true) :
    ((l.Pairwise fun a b => recordTime a ≠ recordTime b) →
      sortRecords (some SortField.date) SortDirection.desc l =
        (sortRecords (some SortField.date) SortDirection.asc l).reverse) ∧
    (∀ (dir : SortDirection) (t : Int),
      (sortRecords (some SortField.date) dir l).filter (fun r => decide (recordTime r = some t)) =
        l.filter fun r => decide (recordTime r = some t)) := by
  constructor
  · intro hd
    rw [sortRecords_date_asc l hv, sortRecords_date_desc l hv]
    apply mergeSort_desc_eq_reverse
    refine hd.imp_of_mem ?_
    intro a b ha hb hne hk
    apply hne
    obtain ⟨x, hx⟩ := Option.isSome_iff_exists.mp (hv a ha)
    obtain ⟨y, hy⟩ := Option.isSome_iff_exists.mp (hv b hb)
    unfold timeKey at hk
    rw [hx, hy] at hk
    simp only [Option.getD_some] at hk
    rw [hx, hy, hk]
  · intro dir t
    cases dir with
    | asc =>
      rw [sortRecords_date_asc l hv]
      apply mergeSort_filter_key l leAscDate leAscDate_trans leAscDate_total
      intro a b hpa hpb
      simp only [decide_eq_true_eq] at hpa hpb
      simp only [leAscDate, timeKey, hpa, hpb, Option.getD_some, decide_eq_true_eq]
      omega
    | desc =>
      rw [sortRecords_date_desc l hv]
      apply mergeSort_filter_key l leDescDate leDescDate_trans leDescDate_total
      intro a b hpa hpb
      simp only [decide_eq_true_eq] at hpa hpb
      simp only [leDescDate, timeKey, hpa, hpb, Option.getD_some, decide_eq_true_eq]
      omega

/-- A two-record store with distinct valid dates. -/
def exStoreC5 : List Record :=
  [{ id := "1", about := { name := "Ann", status := StatusV.ACTIVE, email := "ann@demo.com" },
     details := { date := "06 Mar 2024", invitedBy := "Bob" } },
   { id := "2", about := { name := "Dan", status := StatusV.INVITED, email := "dan@demo.com" },
     details := { date := "05 Mar 2024", invitedBy := "Bob" } }]

/-- Witness for `c5_date_sort` on a concrete two-record sequence. -/
theorem c5_date_sort_witness :
    (∀ r ∈ exStoreC5, (recordTime r).isSome = true) ∧
    (((exStoreC5.Pairwise fun a b => recordTime a ≠ recordTime b) →
      sortRecords (some SortField.date) SortDirection.desc exStoreC5 =
        (sortRecords (some SortField.date) SortDirection.asc exStoreC5).reverse) ∧
    (∀ (dir : SortDirection) (t : Int),
      (sortRecords (some SortField.date) dir exStoreC5).filter
          (fun r => decide (recordTime r = some t)) =
        exStoreC5.filter fun r => decide (recordTime r = some t))) :=
  ⟨by decide, c5_date_sort exStoreC5 (by decide)⟩
